import Mathlib

/-!
Shallow embedding of the gold-price app's market-data core
(`src/app/api/spot/route.ts`, the history route and the earlier spot-route
variant in `src/unnamed/part_000` / `src/unnamed/part_001`, and the chart
component in `src/app/page.tsx`).

Conventions of the embedding:
* JavaScript numbers are modelled as rationals (`ℚ`).  A value that may be
  non-finite (`NaN`, `±Infinity`) is modelled as `Option ℚ` with `none`
  standing for the non-finite case, so `Number.isFinite` becomes `Option.isSome`.
* Fallible async functions return `Except String`; a thrown `Error(msg)` is
  `.error msg`.
* Upstream HTTP payloads are modelled at the point where the source has
  finished its structural extraction (optional fields become `Option`,
  `null`-able array entries become `Option` entries).
-/

/-- Ounce-to-gram conversion constant `OUNCE_TO_GRAM = 31.1034768` from the
history route and `page.tsx`. -/
def OUNCE_TO_GRAM : ℚ := 311034768 / 10000000

/-- One parsed chart sample `{ ts, close }` as produced by `parseSeries` in the
history route. -/
structure TsClose where
  ts : Int
  close : ℚ
deriving DecidableEq

/-- One merged history point (`Point` in the history route and `HistoryPoint`
in `page.tsx`). -/
structure Point where
  ts : Int
  usdPerOunce : ℚ
  usdKrw : ℚ
  krwPerGram : ℚ
deriving DecidableEq

/-- The body pushed for each gold point in `mergeGoldAndFx`
(history route, lines 308-317). -/
def mergePoint (goldPoint fxPoint : TsClose) : Point :=
  { ts := goldPoint.ts
    usdPerOunce := goldPoint.close
    usdKrw := fxPoint.close
    krwPerGram := goldPoint.close * fxPoint.close / OUNCE_TO_GRAM }

/-- The `while (fxIndex + 1 < fxSeries.length && fxSeries[fxIndex + 1].ts <= goldPoint.ts)`
cursor advance of `mergeGoldAndFx` (history route, lines 299-301).  The fixed
array with index is modelled as current element (`cur`) plus remaining tail:
advancing the index by one moves the head of the tail into `cur`. -/
def advanceFx (t : Int) : TsClose → List TsClose → TsClose × List TsClose
  | cur, [] => (cur, [])
  | cur, next :: rest =>
      if next.ts ≤ t then advanceFx t next rest else (cur, next :: rest)

/-- The per-gold-point loop of `mergeGoldAndFx` (history route, lines 298-318).
The source's `if (!fxPoint) continue` guard is dead code (the cursor index is
always in bounds once the series is non-empty) and is not represented. -/
def mergeAux : TsClose → List TsClose → List TsClose → List Point
  | _, _, [] => []
  | cur, fxRest, g :: gs =>
      let s := advanceFx g.ts cur fxRest
      mergePoint g s.1 :: mergeAux s.1 s.2 gs

/-- `mergeGoldAndFx` from the history route (lines 287-321): empty input on
either side yields `[]`, otherwise the two-pointer forward join starting with
the FX cursor at index 0. -/
def mergeGoldAndFx (goldSeries fxSeries : List TsClose) : List Point :=
  match goldSeries, fxSeries with
  | [], _ => []
  | _, [] => []
  | _, fx0 :: fxRest => mergeAux fx0 fxRest goldSeries

/-- Timestamp-sortedness (non-decreasing `ts`) of a parsed series, the state
`parseSeries` guarantees by its `sort((a, b) => a.ts - b.ts)`. -/
abbrev tsSorted (l : List TsClose) : Prop :=
  List.Pairwise (fun a b => a.ts ≤ b.ts) l

/-- Timestamp-sortedness of a merged point list. -/
abbrev tsSortedPoints (l : List Point) : Prop :=
  List.Pairwise (fun a b => a.ts ≤ b.ts) l

/-- The last FX sample whose timestamp is `≤ t`, if any (the join key of the
claimed alignment property). -/
def lastFxLE (fx : List TsClose) (t : Int) : Option TsClose :=
  (fx.filter (fun p => p.ts ≤ t)).getLast?

/-- The FX sample the alignment property pairs with a metal timestamp `t`:
the latest FX sample with timestamp `≤ t`, or the first FX sample when no FX
timestamp qualifies. -/
def fxForTs (fx : List TsClose) (t : Int) : TsClose :=
  (lastFxLE fx t).getD (fx.headD ⟨0, 0⟩)

/-- `RANGE_CONFIG` from the history route (lines 203-209), as the ordered
key/value pairs of the object literal; each value is the `(range, interval)`
pair sent upstream. -/
def RANGE_CONFIG : List (String × String × String) :=
  [("1mo", ("1mo", "1h")),
   ("6mo", ("6mo", "1d")),
   ("1y", ("1y", "1d")),
   ("10y", ("10y", "1wk")),
   ("20y", ("20y", "1mo"))]

/-- The property names every plain object literal inherits from
`Object.prototype`, which JavaScript's `in` operator also reports as present
(the prototype chain of `RANGE_CONFIG`). -/
def OBJECT_PROTOTYPE_KEYS : List String :=
  ["constructor", "hasOwnProperty", "isPrototypeOf", "propertyIsEnumerable",
   "toLocaleString", "toString", "valueOf", "__defineGetter__",
   "__defineSetter__", "__lookupGetter__", "__lookupSetter__", "__proto__"]

/-- JavaScript's `selected in RANGE_CONFIG` (history route, line 326): `in`
tests the whole prototype chain, so it accepts the object literal's own keys
and the properties inherited from `Object.prototype`. -/
def inRangeConfig (k : String) : Bool :=
  (RANGE_CONFIG.lookup k).isSome || decide (k ∈ OBJECT_PROTOTYPE_KEYS)

/-- The range-key resolution of the history route's `GET`
(`selected && selected in RANGE_CONFIG ? selected : "1mo"`, line 326, with
`searchParams.get` returning `none` when the parameter is missing and the
empty string falsy in the source's `selected &&` guard).  Note that for an
inherited-key result `RANGE_CONFIG[rangeKey]` is not a `(range, interval)`
pair (`RANGE_CONFIG.lookup` is `none`): the source destructures the inherited
`Object.prototype` member, yielding `undefined` span and interval. -/
def rangeKeyOf (selected : Option String) : String :=
  match selected with
  | none => "1mo"
  | some k =>
      if k = "" then "1mo"
      else if inRangeConfig k then k else "1mo"

/-- The canonical domestic snapshot (`DomesticGoldSnapshot` in the spot
route). -/
structure DomesticGoldSnapshot where
  domesticKrwPerGram : ℚ
  changePercent : ℚ
  previousDomesticKrwPerGram : ℚ
  updatedAt : Option String
deriving DecidableEq

/-- Exactly `n` ASCII digits from the front of a character list, returning the
digits and the remainder. -/
def takeDigits : Nat → List Char → Option (List Char × List Char)
  | 0, cs => some ([], cs)
  | _ + 1, [] => none
  | n + 1, c :: cs =>
      if c.isDigit then (takeDigits n cs).map (fun p => (c :: p.1, p.2)) else none

/-- One character out of a set, from the front of a character list. -/
def takeCharIn (ok : Char → Bool) : List Char → Option (List Char)
  | [] => none
  | c :: cs => if ok c then some cs else none

/-- Attempt of the spot route's date pattern
`(\d{4})[.-](\d{2})[.-](\d{2})\s+(\d{2}):(\d{2})(?::(\d{2}))?` at the head of
a character list, returning the rebuilt canonical string on success (the `\s+`
is matched greedily, which is equivalent here because whitespace and digits
are disjoint). -/
def matchKstAt (cs : List Char) : Option String := do
  let (y, cs) ← takeDigits 4 cs
  let cs ← takeCharIn (fun c => c = '.' ∨ c = '-') cs
  let (mo, cs) ← takeDigits 2 cs
  let cs ← takeCharIn (fun c => c = '.' ∨ c = '-') cs
  let (d, cs) ← takeDigits 2 cs
  let cs ← takeCharIn Char.isWhitespace cs
  let cs := cs.dropWhile Char.isWhitespace
  let (h, cs) ← takeDigits 2 cs
  let cs ← takeCharIn (fun c => c = ':') cs
  let (mi, cs) ← takeDigits 2 cs
  let sec : List Char :=
    match cs with
    | ':' :: rest =>
        match takeDigits 2 rest with
        | some (s, _) => s
        | none => ['0', '0']
    | _ => ['0', '0']
  return String.mk y ++ "-" ++ String.mk mo ++ "-" ++ String.mk d ++ "T" ++
    String.mk h ++ ":" ++ String.mk mi ++ ":" ++ String.mk sec ++ "+09:00"

/-- Leftmost occurrence search for the date pattern (JavaScript
`String.prototype.match` semantics for an unanchored regex). -/
def findKst : List Char → Option String
  | [] => none
  | c :: cs =>
      match matchKstAt (c :: cs) with
      | some s => some s
      | none => findKst cs

/-- `toIsoFromKst` from the spot route (lines 48-60): falsy input (missing or
empty string) yields `null`; otherwise the first date-pattern match is
canonicalized to `YYYY-MM-DDTHH:MM:SS+09:00` with seconds defaulting to
`00`. -/
def toIsoFromKst (value : Option String) : Option String :=
  match value with
  | none => none
  | some v => if v = "" then none else findKst v.data

/-- Lines 135-139 of the spot route: the percent-fallback previous price
`changePercent === -100 ? cur : cur / (1 + changePercent / 100)` followed by
the clamp `if (!Number.isFinite(prev) || prev <= 0) prev = cur`.  In the
rational model every value is finite, so only the `prev <= 0` arm of the
clamp is representable (the division by zero at `pct = -100` is already
special-cased by the source). -/
def fallbackPrevious (cur pct : ℚ) : ℚ :=
  let p0 := if pct = -100 then cur else cur / (1 + pct / 100)
  if p0 ≤ 0 then cur else p0

/-- `fetchDomesticGoldSnapshot` from the spot route (the HTML-scrape variant,
lines 97-149), modelled from the point where the source has extracted text
from the fetched document:
* `rawPrice` is the result of `parseNumber` on the cleaned `no_today` text
  (`none` when the block, the `em`, or the numeric parse fails, line 115);
* `percentVal` is the first decimal literal found in the stripped second `em`
  of the `no_exday` block (`none` when the block, the `em`, or the literal is
  missing, lines 124-128; the source then uses `0`);
* `isDown` / `isUp` are the `ico down` / `ico up` class tests (lines 130-131);
* `dateText` is the trimmed `span.date` text (line 141).
`rawPercent` is always finite here (it is parsed from a digits-and-dot
literal), so the source's `Number.isFinite(rawPercent)` guard is the identity
in this model. -/
def fetchDomesticGoldSnapshot (rawPrice percentVal : Option ℚ)
    (isDown isUp : Bool) (dateText : Option String) :
    Except String DomesticGoldSnapshot :=
  match rawPrice with
  | none => .error "Failed to parse domestic gold reference price"
  | some rp =>
      let domesticKrwPerGram := if rp > 1000000 then rp / 1000 else rp
      let rawPercent := percentVal.getD 0
      let sign : ℚ := if isDown then -1 else if isUp then 1 else 1
      let changePercent := sign * rawPercent
      .ok { domesticKrwPerGram
            changePercent
            previousDomesticKrwPerGram := fallbackPrevious domesticKrwPerGram changePercent
            updatedAt := toIsoFromKst dateText }

/-- `fetchDomesticGoldSnapshot` from the tabular-JSON variant
(`src/unnamed/part_001`, lines 97-144), modelled from the extracted cells:
* `krxFound` is `krxIndex >= 0 && rows.length > 0` (line 115);
* `rawPrice` / `rawPrevious` are `Number(latestRow[krxIndex])` and
  `Number(previousRow[krxIndex])` with `none` for a non-finite result
  (line 124); the previous row repeats the latest row when only one exists;
* `updatedAt` is the variant's `toIsoFromKst(data.updated)` result, taken as
  given since no claim depends on that variant's date canonicalization. -/
def fetchDomesticGoldSnapshotTabular (krxFound : Bool)
    (rawPrice rawPrevious : Option ℚ) (updatedAt : Option String) :
    Except String DomesticGoldSnapshot :=
  if ¬ krxFound then .error "Failed to parse 금 99.99_1kg 금현물 reference price"
  else
    match rawPrice, rawPrevious with
    | some rp, some rpv =>
        let needsKgToGram := rp > 1000000
        let domesticKrwPerGram := if needsKgToGram then rp / 1000 else rp
        let previousDomesticKrwPerGram := if needsKgToGram then rpv / 1000 else rpv
        let changePercent :=
          if previousDomesticKrwPerGram ≠ 0 then
            (domesticKrwPerGram - previousDomesticKrwPerGram) / previousDomesticKrwPerGram * 100
          else 0
        .ok { domesticKrwPerGram, changePercent, previousDomesticKrwPerGram, updatedAt }
    | _, _ => .error "Invalid gold reference values"

/-- A JavaScript number: `none` models a non-finite value (`NaN`, `±Infinity`),
`some q` a finite one. -/
abbrev JsNum := Option ℚ

/-- The extracted fields of one Yahoo chart result that the spot route reads:
`meta.regularMarketPrice` (outer `none` = field absent, inner `none` =
present but non-finite), `timestamp` (absent array modelled as `[]`), and the
first quote's `close` array (entry `none` = `null`). -/
structure YahooChartResult where
  regularMarketPrice : Option JsNum
  timestamp : List Int
  close : List (Option JsNum)
deriving DecidableEq

/-- `getLastValidNumber` from the spot route (lines 34-46): the last entry of
the `close` array that is a finite number, scanning from the end. -/
def getLastValidNumber : List (Option JsNum) → Option ℚ
  | [] => none
  | v :: rest =>
      match getLastValidNumber rest with
      | some q => some q
      | none =>
          match v with
          | some (some q) => some q
          | _ => none

/-- `meta?.regularMarketPrice ?? close-scan` (spot route lines 162-163): the
`??` falls through only on an absent field, not on a non-finite value. -/
def marketValue (c : YahooChartResult) : Option JsNum :=
  match c.regularMarketPrice with
  | some v => some v
  | none => (getLastValidNumber c.close).map some

/-- The finite numeric value the spot route's validation accepts, if any:
`marketValue` collapsed so that both an absent and a non-finite result are
`none`. -/
def finiteValue (c : YahooChartResult) : Option ℚ :=
  (marketValue c).join

/-- The JSON record the spot route returns on success. -/
structure SpotRecord where
  domesticKrwPerGram : ℚ
  goldPriceUsdPerOunce : ℚ
  usdKrw : ℚ
  previousDomesticKrwPerGram : ℚ
  changePercent : ℚ
  updatedAt : String
  source : String
deriving DecidableEq

/-- The `source` label of the spot route's success payload. -/
def spotSource : String :=
  "Domestic: Naver Finance 금 99.99_1kg 금현물 (KRX, 1g 환산). Global: Yahoo Finance (GC=F, KRW=X)."

/-- Two-digit zero padding for the ISO renderer. -/
def pad2 (n : Int) : String :=
  if n < 10 then "0" ++ toString n else toString n

/-- Four-digit zero padding for the ISO renderer. -/
def pad4 (n : Int) : String :=
  if n < 10 then "000" ++ toString n
  else if n < 100 then "00" ++ toString n
  else if n < 1000 then "0" ++ toString n
  else toString n

/-- Proleptic-Gregorian civil date from days since the Unix epoch (the
arithmetic underlying JavaScript `Date`); all intermediate divisions act on
non-negative operands except the era split, which uses floor division. -/
def civilFromDays (days : Int) : Int × Int × Int :=
  let z := days + 719468
  let era := z.fdiv 146097
  let doe := z - era * 146097
  let yoe := (doe - doe.fdiv 1460 + doe.fdiv 36524 - doe.fdiv 146096).fdiv 365
  let y := yoe + era * 400
  let doy := doe - (365 * yoe + yoe.fdiv 4 - yoe.fdiv 100)
  let mp := (5 * doy + 2).fdiv 153
  let d := doy - (153 * mp + 2).fdiv 5 + 1
  let m := mp + (if mp < 10 then 3 else -9)
  (if m ≤ 2 then y + 1 else y, m, d)

/-- `new Date(sec * 1000).toISOString()` for whole epoch seconds: the UTC
ISO-8601 rendering `YYYY-MM-DDTHH:MM:SS.000Z` (years outside 0..9999, where
`toISOString` switches to the expanded-year format, do not arise for chart
timestamps). -/
def toIsoUtc (sec : Int) : String :=
  let days := sec.fdiv 86400
  let rem := sec - days * 86400
  let c := civilFromDays days
  pad4 c.1 ++ "-" ++ pad2 c.2.1 ++ "-" ++ pad2 c.2.2 ++ "T" ++
    pad2 (rem.fdiv 3600) ++ ":" ++ pad2 ((rem.fdiv 60) % 60) ++ ":" ++
    pad2 (rem % 60) ++ ".000Z"

/-- The spot route's `GET` (lines 151-203), from the outcomes of the three
concurrently issued fetches (`Promise.all` is all-or-nothing: the first
failing outcome rejects the whole join) and the current time `now` in epoch
seconds (`Date.now() / 1000`, used only when a chart has no timestamps). -/
def spotGET (dres : Except String DomesticGoldSnapshot)
    (gres fres : Except String YahooChartResult) (now : Int) :
    Except String SpotRecord :=
  match dres, gres, fres with
  | .error e, _, _ => .error e
  | _, .error e, _ => .error e
  | _, _, .error e => .error e
  | .ok domesticGold, .ok goldChart, .ok fxChart =>
      match marketValue goldChart, marketValue fxChart with
      | some (some goldPriceUsdPerOunce), some (some usdKrw) =>
          let goldTimestamp := goldChart.timestamp.getLast?.getD now
          let fxTimestamp := fxChart.timestamp.getLast?.getD now
          let yahooUpdatedAt := toIsoUtc (max goldTimestamp fxTimestamp)
          .ok { domesticKrwPerGram := domesticGold.domesticKrwPerGram
                goldPriceUsdPerOunce
                usdKrw
                previousDomesticKrwPerGram := domesticGold.previousDomesticKrwPerGram
                changePercent := domesticGold.changePercent
                updatedAt := domesticGold.updatedAt.getD yahooUpdatedAt
                source := spotSource }
      | _, _ => .error "Invalid market values received"

/-- `Except` success test, for stating the all-or-nothing property. -/
def exceptIsOk : Except String α → Bool
  | .ok _ => true
  | .error _ => false

/-- The domestic rebased index of `TrendChart` (`page.tsx` lines 96-97):
`points.map(p => p.krwPerGram / first.krwPerGram * 100)` with `first =
points[0]`; on an empty list the map never evaluates its callback. -/
def domesticIndex (points : List Point) : List ℚ :=
  match points.head? with
  | none => []
  | some first => points.map (fun p => p.krwPerGram / first.krwPerGram * 100)

/-- The global rebased index of `TrendChart` (`page.tsx` lines 96, 98):
`points.map(p => p.usdPerOunce / first.usdPerOunce * 100)`. -/
def globalIndex (points : List Point) : List ℚ :=
  match points.head? with
  | none => []
  | some first => points.map (fun p => p.usdPerOunce / first.usdPerOunce * 100)

/-- Case analysis of the percent-fallback previous price: the `-100` branch,
the untouched-formula branch, the clamp branch, and positivity. -/
theorem fallbackPrevious_cases (cur pct : ℚ) :
    (pct = -100 → fallbackPrevious cur pct = cur)
    ∧ (pct ≠ -100 → 0 < cur / (1 + pct / 100) →
        fallbackPrevious cur pct = cur / (1 + pct / 100))
    ∧ (cur / (1 + pct / 100) ≤ 0 → fallbackPrevious cur pct = cur)
    ∧ (0 < cur → 0 < fallbackPrevious cur pct) := by
  unfold fallbackPrevious
  dsimp only
  refine ⟨fun h1 => ?_, fun h1 h2 => ?_, fun h1 => ?_, fun h1 => ?_⟩
  · rw [if_pos h1]
    split_ifs <;> rfl
  · rw [if_neg h1, if_neg (not_le.mpr h2)]
  · by_cases hp : pct = -100
    · rw [if_pos hp]
      split_ifs <;> rfl
    · rw [if_neg hp, if_pos h1]
  · split_ifs with ha hb hc
    · exact h1
    · exact h1
    · exact h1
    · exact not_le.mp hc

/-- The fallback previous price at zero change percent is the current price. -/
theorem fallbackPrevious_zero (cur : ℚ) : fallbackPrevious cur 0 = cur := by
  unfold fallbackPrevious
  norm_num

/-- C3 counterexample: at current price 1000 and change percent -150 (percent
literal 150 with the down marker), the scrape-variant snapshot is produced by
the percent fallback with `changePercent = -150 ≠ -100`, yet its previous
price is 1000, not `1000 / (1 + (-150) / 100) = -2000`: the source's clamp
(line 137-139) replaces the non-positive formula value by the current
price. -/
theorem prev_price_formula_cex :
    fetchDomesticGoldSnapshot (some 1000) (some 150) true false none =
      .ok ⟨1000, -150, 1000, none⟩
    ∧ ((-150 : ℚ) ≠ -100)
    ∧ (1000 : ℚ) / (1 + (-150) / 100) ≠ 1000 := by
  refine ⟨?_, by norm_num, by norm_num⟩
  simp [fetchDomesticGoldSnapshot, fallbackPrevious, toIsoFromKst]
  norm_num

/-- C3 (amended): for a scrape-variant snapshot, the fallback formula
`previous = current / (1 + pct / 100)` holds when `changePercent ≠ -100` and
the formula value is positive; at `changePercent = -100`, and whenever the
formula value is non-positive, the previous price equals the current price. -/
theorem prev_price_fallback (rawPrice percentVal : Option ℚ)
    (down up : Bool) (dateText : Option String) (snap : DomesticGoldSnapshot)
    (h : fetchDomesticGoldSnapshot rawPrice percentVal down up dateText = .ok snap) :
    (snap.changePercent = -100 →
      snap.previousDomesticKrwPerGram = snap.domesticKrwPerGram)
    ∧ (snap.changePercent ≠ -100 →
        0 < snap.domesticKrwPerGram / (1 + snap.changePercent / 100) →
        snap.previousDomesticKrwPerGram =
          snap.domesticKrwPerGram / (1 + snap.changePercent / 100)) := by
  cases rawPrice with
  | none => exact absurd h (by simp [fetchDomesticGoldSnapshot])
  | some rp =>
      simp only [fetchDomesticGoldSnapshot, Except.ok.injEq] at h
      subst h
      dsimp only
      exact ⟨fun h1 => (fallbackPrevious_cases _ _).1 h1,
        fun h1 h2 => (fallbackPrevious_cases _ _).2.1 h1 h2⟩

/-- C3 witness: a concrete snapshot at current price 1000 and change percent
-20 satisfies the fallback formula (previous price 1250). -/
theorem prev_price_fallback_witness :
    fetchDomesticGoldSnapshot (some 1000) (some 20) true false none =
      .ok ⟨1000, -20, 1250, none⟩
    ∧ (⟨1000, -20, 1250, none⟩ : DomesticGoldSnapshot).previousDomesticKrwPerGram =
        (1000 : ℚ) / (1 + (-20) / 100) := by
  have h : fetchDomesticGoldSnapshot (some 1000) (some 20) true false none =
      .ok ⟨1000, -20, 1250, none⟩ := by
    simp [fetchDomesticGoldSnapshot, fallbackPrevious, toIsoFromKst]
    norm_num
  refine ⟨h, ?_⟩
  have := (prev_price_fallback (some 1000) (some 20) true false none _ h).2
    (by norm_num) (by norm_num)
  simpa using this

/-- C5: for both domestic adapter variants present in the repository, a raw
price above 1,000,000 is divided by 1000 (the tabular variant divides its
paired previous value in the same case) and a raw price of at most 1,000,000
is kept unchanged; in particular raw price 1,350,000 normalizes to 1350. -/
theorem domestic_unit_normalization :
    (∀ (q : ℚ) (pv : Option ℚ) (down up : Bool) (dt : Option String)
        (snap : DomesticGoldSnapshot),
      fetchDomesticGoldSnapshot (some q) pv down up dt = .ok snap →
      (1000000 < q → snap.domesticKrwPerGram = q / 1000)
      ∧ (¬ 1000000 < q → snap.domesticKrwPerGram = q))
    ∧ (∀ (kf : Bool) (q qp : ℚ) (u : Option String)
        (snap : DomesticGoldSnapshot),
      fetchDomesticGoldSnapshotTabular kf (some q) (some qp) u = .ok snap →
      (1000000 < q → snap.domesticKrwPerGram = q / 1000
        ∧ snap.previousDomesticKrwPerGram = qp / 1000)
      ∧ (¬ 1000000 < q → snap.domesticKrwPerGram = q
        ∧ snap.previousDomesticKrwPerGram = qp))
    ∧ (∀ (pv : Option ℚ) (down up : Bool) (dt : Option String)
        (snap : DomesticGoldSnapshot),
      fetchDomesticGoldSnapshot (some 1350000) pv down up dt = .ok snap →
      snap.domesticKrwPerGram = 1350) := by
  refine ⟨?_, ?_, ?_⟩
  · intro q pv down up dt snap h
    simp only [fetchDomesticGoldSnapshot, Except.ok.injEq] at h
    subst h
    dsimp only
    constructor
    · intro hq
      rw [if_pos hq]
    · intro hq
      rw [if_neg hq]
  · intro kf q qp u snap h
    cases kf with
    | false => simp [fetchDomesticGoldSnapshotTabular] at h
    | true =>
        simp only [fetchDomesticGoldSnapshotTabular] at h
        rw [if_neg (by simp)] at h
        rw [Except.ok.injEq] at h
        subst h
        dsimp only
        constructor
        · intro hq
          rw [if_pos hq, if_pos hq]
          exact ⟨rfl, rfl⟩
        · intro hq
          rw [if_neg hq, if_neg hq]
          exact ⟨rfl, rfl⟩
  · intro pv down up dt snap h
    simp only [fetchDomesticGoldSnapshot, Except.ok.injEq] at h
    subst h
    dsimp only
    rw [if_pos (by norm_num)]
    norm_num

/-- C5 witness: raw price 1,350,000 with no percent markup yields the
normalized snapshot price 1350. -/
theorem domestic_unit_normalization_witness :
    fetchDomesticGoldSnapshot (some 1350000) none false false none =
      .ok ⟨1350, 0, 1350, none⟩
    ∧ (⟨1350, 0, 1350, none⟩ : DomesticGoldSnapshot).domesticKrwPerGram = 1350 := by
  have h : fetchDomesticGoldSnapshot (some 1350000) none false false none =
      .ok ⟨1350, 0, 1350, none⟩ := by
    simp [fetchDomesticGoldSnapshot, fallbackPrevious, toIsoFromKst]
    norm_num
  exact ⟨h, domestic_unit_normalization.2.2 none false false none _ h⟩

/-- C9: every successfully returned scrape-variant snapshot has a previous
price that is strictly positive whenever the normalized current price is
(in the rational model every value is finite by construction; the source's
clamp additionally guards the float non-finite case), and whenever the
percent formula yields a non-positive value the previous price is silently
replaced by the current price. -/
theorem scrape_prev_invariant (rawPrice percentVal : Option ℚ)
    (down up : Bool) (dateText : Option String) (snap : DomesticGoldSnapshot)
    (h : fetchDomesticGoldSnapshot rawPrice percentVal down up dateText = .ok snap) :
    (0 < snap.domesticKrwPerGram → 0 < snap.previousDomesticKrwPerGram)
    ∧ (snap.domesticKrwPerGram / (1 + snap.changePercent / 100) ≤ 0 →
        snap.previousDomesticKrwPerGram = snap.domesticKrwPerGram) := by
  cases rawPrice with
  | none => exact absurd h (by simp [fetchDomesticGoldSnapshot])
  | some rp =>
      simp only [fetchDomesticGoldSnapshot, Except.ok.injEq] at h
      subst h
      dsimp only
      exact ⟨fun h1 => (fallbackPrevious_cases _ _).2.2.2 h1,
        fun h1 => (fallbackPrevious_cases _ _).2.2.1 h1⟩

/-- C9 witness: at current price 1000 and change percent -150 the formula
value is negative, and the returned previous price is the (positive) current
price. -/
theorem scrape_prev_invariant_witness :
    fetchDomesticGoldSnapshot (some 1000) (some 150) true false none =
      .ok ⟨1000, -150, 1000, none⟩
    ∧ (0 : ℚ) < (⟨1000, -150, 1000, none⟩ : DomesticGoldSnapshot).previousDomesticKrwPerGram
    ∧ (⟨1000, -150, 1000, none⟩ : DomesticGoldSnapshot).previousDomesticKrwPerGram =
        (⟨1000, -150, 1000, none⟩ : DomesticGoldSnapshot).domesticKrwPerGram := by
  have h : fetchDomesticGoldSnapshot (some 1000) (some 150) true false none =
      .ok ⟨1000, -150, 1000, none⟩ := by
    simp [fetchDomesticGoldSnapshot, fallbackPrevious, toIsoFromKst]
    norm_num
  have hinv := scrape_prev_invariant (some 1000) (some 150) true false none _ h
  exact ⟨h, hinv.1 (by norm_num), hinv.2 (by norm_num)⟩

/-- C10: in the scrape variant, a missing or unparsable percent markup (and
missing up/down markers) is not terminal: as soon as the price field itself
parses, the snapshot succeeds, and with no percent literal it carries
`changePercent = 0` and a previous price equal to the current price; only a
price-parse failure raises an error. -/
theorem scrape_percent_failure_not_terminal (rawPrice percentVal : Option ℚ)
    (down up : Bool) (dateText : Option String) :
    (rawPrice = none →
      fetchDomesticGoldSnapshot rawPrice percentVal down up dateText =
        .error "Failed to parse domestic gold reference price")
    ∧ (∀ q, rawPrice = some q →
        ∃ snap, fetchDomesticGoldSnapshot rawPrice percentVal down up dateText = .ok snap)
    ∧ (∀ q, rawPrice = some q → percentVal = none →
        ∃ snap, fetchDomesticGoldSnapshot rawPrice percentVal down up dateText = .ok snap
          ∧ snap.changePercent = 0
          ∧ snap.previousDomesticKrwPerGram = snap.domesticKrwPerGram) := by
  refine ⟨fun h => ?_, fun q hq => ?_, fun q hq hpv => ?_⟩
  · subst h
    rfl
  · subst hq
    exact ⟨_, rfl⟩
  · subst hq
    subst hpv
    refine ⟨_, rfl, ?_, ?_⟩
    · dsimp only [fetchDomesticGoldSnapshot]
      simp
    · dsimp only [fetchDomesticGoldSnapshot]
      simp [fallbackPrevious_zero]

/-- C10 witness: with price 900 parsed and no percent markup, the snapshot
succeeds with change percent 0 and previous price 900. -/
theorem scrape_percent_failure_not_terminal_witness :
    (fetchDomesticGoldSnapshot (some 900) none true true none).toOption.map
        (fun s => (s.changePercent, s.previousDomesticKrwPerGram, s.domesticKrwPerGram)) =
      some (0, 900, 900) := by
  obtain ⟨snap, hok, hcp, hprev⟩ :=
    (scrape_percent_failure_not_terminal (some 900) none true true none).2.2 900 rfl rfl
  have he : fetchDomesticGoldSnapshot (some 900) none true true none =
      .ok ⟨900, 0, 900, none⟩ := by
    simp [fetchDomesticGoldSnapshot, fallbackPrevious, toIsoFromKst]
    norm_num
  have hsnap : snap = ⟨900, 0, 900, none⟩ := by
    have := (he.symm.trans hok)
    rw [Except.ok.injEq] at this
    exact this.symm
  subst hsnap
  rw [hok]
  dsimp [Except.toOption]

/-- C7 counterexample: on the non-empty point sequence whose single point has
value 0, the first rebased index value is the degenerate `0 / 0 * 100`, not
100 (in JavaScript the same division produces `NaN`, likewise different from
100): the rebasing identity needs a nonzero first value. -/
theorem trend_index_first_cex :
    ([ (⟨0, 0, 0, 0⟩ : Point) ] ≠ ([] : List Point))
    ∧ domesticIndex [⟨0, 0, 0, 0⟩] = [0]
    ∧ globalIndex [⟨0, 0, 0, 0⟩] = [0]
    ∧ ((0 : ℚ) ≠ 100) := by
  refine ⟨by simp, ?_, ?_, by norm_num⟩
  · simp [domesticIndex]
  · simp [globalIndex]

/-- C7 (amended): for every non-empty point sequence whose first point has a
nonzero value on the respective axis, the first rebased index value is
exactly 100 (for both the domestic krwPerGram-based and the global
usdPerOunce-based sequence). -/
theorem trend_index_first (points : List Point) (first : Point)
    (h : points.head? = some first) :
    (first.krwPerGram ≠ 0 → (domesticIndex points).head? = some 100)
    ∧ (first.usdPerOunce ≠ 0 → (globalIndex points).head? = some 100) := by
  cases points with
  | nil => simp at h
  | cons p ps =>
      rw [List.head?_cons, Option.some.injEq] at h
      subst h
      constructor
      · intro hne
        simp [domesticIndex, div_self hne]
      · intro hne
        simp [globalIndex, div_self hne]

/-- C7 witness: a two-point sequence starting at value 200 rebases to a first
index of 100. -/
theorem trend_index_first_witness :
    (domesticIndex [⟨0, 5, 5, 200⟩, ⟨1, 6, 6, 300⟩]).head? = some 100
    ∧ (globalIndex [⟨0, 5, 5, 200⟩, ⟨1, 6, 6, 300⟩]).head? = some 100 := by
  have := trend_index_first [⟨0, 5, 5, 200⟩, ⟨1, 6, 6, 300⟩] ⟨0, 5, 5, 200⟩ rfl
  exact ⟨this.1 (by norm_num), this.2 (by norm_num)⟩

/-- C1 counterexample: the identifier `"toString"` is not one of the five
valid range keys, yet it is not treated as `"1mo"`: JavaScript's `in`
operator finds the inherited `Object.prototype.toString`, so the source keeps
`rangeKey = "toString"` (and `RANGE_CONFIG["toString"]` is not a
`(span, interval)` pair — the destructured span and interval are
`undefined`). -/
theorem range_key_resolution_cex :
    ("toString" ∉ ["1mo", "6mo", "1y", "10y", "20y"])
    ∧ rangeKeyOf (some "toString") = "toString"
    ∧ ("toString" : String) ≠ "1mo"
    ∧ RANGE_CONFIG.lookup "toString" = none := by
  refine ⟨by decide, by decide, by decide, by decide⟩

/-- C1 (amended): a missing parameter, the empty string, or an identifier
that is neither one of the five range keys nor an `Object.prototype` property
name resolves to the default `"1mo"` (in particular `"bogus"` does); each of
the five valid identifiers resolves to itself and maps to exactly one
`(span, interval)` configuration in `RANGE_CONFIG`; but an inherited
`Object.prototype` property name passes the `in` test, is kept as the range
key, and has no `(span, interval)` configuration of its own. -/
theorem range_key_resolution (selected : Option String) :
    (selected = none → rangeKeyOf selected = "1mo")
    ∧ (∀ k, selected = some k → k ∉ ["1mo", "6mo", "1y", "10y", "20y"] →
        k ∉ OBJECT_PROTOTYPE_KEYS → rangeKeyOf selected = "1mo")
    ∧ (∀ k, selected = some k → k ∈ ["1mo", "6mo", "1y", "10y", "20y"] →
        rangeKeyOf selected = k)
    ∧ (∀ k, selected = some k → k ∈ OBJECT_PROTOTYPE_KEYS →
        rangeKeyOf selected = k ∧ RANGE_CONFIG.lookup k = none)
    ∧ RANGE_CONFIG.lookup "1mo" = some ("1mo", "1h")
    ∧ RANGE_CONFIG.lookup "6mo" = some ("6mo", "1d")
    ∧ RANGE_CONFIG.lookup "1y" = some ("1y", "1d")
    ∧ RANGE_CONFIG.lookup "10y" = some ("10y", "1wk")
    ∧ RANGE_CONFIG.lookup "20y" = some ("20y", "1mo")
    ∧ rangeKeyOf (some "bogus") = "1mo" := by
  refine ⟨fun h => by rw [h]; rfl, ?_, ?_, ?_, by decide, by decide, by decide,
    by decide, by decide, by decide⟩
  · intro k hsel hmem hproto
    subst hsel
    simp only [List.mem_cons, List.not_mem_nil, or_false, not_or] at hmem
    obtain ⟨h1, h2, h3, h4, h5⟩ := hmem
    by_cases hk : k = ""
    · simp [rangeKeyOf, hk]
    · have e1 : (k == "1mo") = false := beq_eq_false_iff_ne.mpr h1
      have e2 : (k == "6mo") = false := beq_eq_false_iff_ne.mpr h2
      have e3 : (k == "1y") = false := beq_eq_false_iff_ne.mpr h3
      have e4 : (k == "10y") = false := beq_eq_false_iff_ne.mpr h4
      have e5 : (k == "20y") = false := beq_eq_false_iff_ne.mpr h5
      simp [rangeKeyOf, inRangeConfig, RANGE_CONFIG, List.lookup, hk,
        e1, e2, e3, e4, e5, hproto]
  · intro k hsel hmem
    subst hsel
    simp only [List.mem_cons, List.not_mem_nil, or_false] at hmem
    rcases hmem with rfl | rfl | rfl | rfl | rfl <;> decide
  · intro k hsel hmem
    subst hsel
    simp only [OBJECT_PROTOTYPE_KEYS, List.mem_cons, List.not_mem_nil,
      or_false] at hmem
    rcases hmem with rfl | rfl | rfl | rfl | rfl | rfl | rfl | rfl | rfl |
      rfl | rfl | rfl <;> exact ⟨by decide, by decide⟩

/-- C1 witness: `"bogus"` and the missing parameter resolve to `"1mo"`;
`"toString"` is kept as the range key and has no configuration. -/
theorem range_key_resolution_witness :
    rangeKeyOf (some "bogus") = "1mo"
    ∧ rangeKeyOf none = "1mo"
    ∧ rangeKeyOf (some "toString") = "toString"
    ∧ RANGE_CONFIG.lookup "toString" = none :=
  ⟨(range_key_resolution (some "bogus")).2.1 "bogus" rfl (by decide) (by decide),
    (range_key_resolution none).1 rfl,
    ((range_key_resolution (some "toString")).2.2.2.1 "toString" rfl (by decide)).1,
    ((range_key_resolution (some "toString")).2.2.2.1 "toString" rfl (by decide)).2⟩

/-- C4 counterexample: with a finite but negative FX market value (-5), the
spot route's validation passes (it checks only `Number.isFinite`, never
positivity) and a record whose `usdKrw` is -5 is returned, so the aggregation
does not fail on a non-positive market value. -/
theorem spot_positive_validation_cex :
    spotGET (.ok ⟨1350, 0, 1350, none⟩)
        (.ok ⟨some (some 1000), [100], []⟩)
        (.ok ⟨some (some (-5)), [100], []⟩) 0 =
      .ok ⟨1350, 1000, -5, 1350, 0, "1970-01-01T00:01:40.000Z", spotSource⟩
    ∧ ¬ (0 : ℚ) < -5 := by
  constructor
  · rfl
  · norm_num

/-- C4 (amended): the spot aggregation fails with the invalid-market-value
error whenever either chart's market value is not a finite number (absent or
non-finite); every successfully returned record carries exactly the two
finite market values (which need not be positive). -/
theorem spot_market_validation (d : DomesticGoldSnapshot)
    (g f : YahooChartResult) (now : Int) :
    ((finiteValue g = none ∨ finiteValue f = none) →
      spotGET (.ok d) (.ok g) (.ok f) now = .error "Invalid market values received")
    ∧ (∀ r, spotGET (.ok d) (.ok g) (.ok f) now = .ok r →
        finiteValue g = some r.goldPriceUsdPerOunce ∧ finiteValue f = some r.usdKrw) := by
  rcases hg : marketValue g with _ | mg
  · constructor
    · intro _
      simp only [spotGET, hg]
    · intro r hr
      simp only [spotGET, hg] at hr
      exact Except.noConfusion hr
  · rcases hf : marketValue f with _ | mf
    · constructor
      · intro _
        cases mg <;> simp only [spotGET, hg, hf]
      · intro r hr
        cases mg <;> simp only [spotGET, hg, hf] at hr <;> exact Except.noConfusion hr
    · cases mg with
      | none =>
          constructor
          · intro _
            simp only [spotGET, hg, hf]
          · intro r hr
            simp only [spotGET, hg, hf] at hr
            exact Except.noConfusion hr
      | some gq =>
          cases mf with
          | none =>
              constructor
              · intro _
                simp only [spotGET, hg, hf]
              · intro r hr
                simp only [spotGET, hg, hf] at hr
                exact Except.noConfusion hr
          | some fq =>
              constructor
              · intro habs
                rcases habs with habs | habs <;>
                  simp [finiteValue, hg, hf, Option.join] at habs
              · intro r hr
                simp only [spotGET, hg, hf, Except.ok.injEq] at hr
                subst hr
                simp [finiteValue, hg, hf, Option.join]

/-- C4 witness: a gold chart with no market price field and no close data has
no finite market value, and the spot aggregation fails with the
invalid-market-value error. -/
theorem spot_market_validation_witness :
    finiteValue ⟨none, [], []⟩ = none
    ∧ spotGET (.ok ⟨1350, 0, 1350, none⟩) (.ok ⟨none, [], []⟩)
        (.ok ⟨some (some 1300), [], []⟩) 0 = .error "Invalid market values received" :=
  ⟨rfl, (spot_market_validation ⟨1350, 0, 1350, none⟩ ⟨none, [], []⟩
      ⟨some (some 1300), [], []⟩ 0).1 (Or.inl rfl)⟩

/-- C6: if any of the three spot-path fetch outcomes is a failure, the whole
spot operation returns an error (and hence no partial record: the error
branch of `Except` carries no `SpotRecord` at all). -/
theorem spot_all_or_nothing (dres : Except String DomesticGoldSnapshot)
    (gres fres : Except String YahooChartResult) (now : Int)
    (h : exceptIsOk dres = false ∨ exceptIsOk gres = false ∨ exceptIsOk fres = false) :
    ∃ e, spotGET dres gres fres now = .error e := by
  cases dres <;> cases gres <;> cases fres <;>
    first
      | exact ⟨_, rfl⟩
      | simp [exceptIsOk] at h

/-- C6 witness: a failed domestic fetch makes the whole spot operation fail. -/
theorem spot_all_or_nothing_witness :
    exceptIsOk (spotGET (.error "domestic down") (.ok ⟨some (some 1000), [], []⟩)
      (.ok ⟨some (some 1300), [], []⟩) 0) = false := by
  obtain ⟨e, he⟩ := spot_all_or_nothing (.error "domestic down")
    (.ok ⟨some (some 1000), [], []⟩) (.ok ⟨some (some 1300), [], []⟩) 0 (Or.inl rfl)
  rw [he]
  rfl

/-- C8: a successful spot record's `updatedAt` is the domestic snapshot's
canonical timestamp when that is present, and otherwise the later of the two
chart series' latest timestamps rendered as a UTC ISO-8601 string. -/
theorem spot_updatedAt_resolution (d : DomesticGoldSnapshot)
    (g f : YahooChartResult) (now : Int) (r : SpotRecord)
    (h : spotGET (.ok d) (.ok g) (.ok f) now = .ok r) :
    (∀ s, d.updatedAt = some s → r.updatedAt = s)
    ∧ (∀ tg tf, d.updatedAt = none →
        g.timestamp.getLast? = some tg → f.timestamp.getLast? = some tf →
        r.updatedAt = toIsoUtc (max tg tf)) := by
  rcases hg : marketValue g with _ | (_ | gq) <;>
    rcases hf : marketValue f with _ | (_ | fq) <;>
      simp only [spotGET, hg, hf, Except.ok.injEq] at h <;>
        try exact Except.noConfusion h
  subst h
  dsimp only
  constructor
  · intro s hs
    rw [hs]
    rfl
  · intro tg tf hnone htg htf
    rw [hnone, htg, htf]
    rfl

/-- C8 witness: with no domestic timestamp, gold chart latest timestamp 200
and FX latest timestamp 100, the returned `updatedAt` is the ISO rendering of
the later timestamp 200. -/
theorem spot_updatedAt_resolution_witness :
    spotGET (.ok ⟨1350, 0, 1350, none⟩) (.ok ⟨some (some 1000), [200], []⟩)
        (.ok ⟨some (some 1300), [100], []⟩) 0 =
      .ok ⟨1350, 1000, 1300, 1350, 0, "1970-01-01T00:03:20.000Z", spotSource⟩
    ∧ ("1970-01-01T00:03:20.000Z" : String) = toIsoUtc (max 200 100) := by
  have h : spotGET (.ok ⟨1350, 0, 1350, none⟩) (.ok ⟨some (some 1000), [200], []⟩)
      (.ok ⟨some (some 1300), [100], []⟩) 0 =
      .ok ⟨1350, 1000, 1300, 1350, 0, "1970-01-01T00:03:20.000Z", spotSource⟩ := by
    rfl
  exact ⟨h, (spot_updatedAt_resolution ⟨1350, 0, 1350, none⟩ ⟨some (some 1000), [200], []⟩
    ⟨some (some 1300), [100], []⟩ 0 _ h).2 200 100 rfl rfl rfl⟩

/-- A sorted append has a sorted right part. -/
theorem tsSorted_of_append {pre l : List TsClose} (h : tsSorted (pre ++ l)) :
    tsSorted l :=
  (List.pairwise_append.mp h).2.1

/-- When `cur` qualifies at `t` and nothing after it does, `cur` is the last
qualifying sample. -/
theorem lastFxLE_append_cons (pre : List TsClose) (cur : TsClose)
    (rest : List TsClose) (t : Int) (hcur : cur.ts ≤ t)
    (hrest : ∀ x ∈ rest, ¬ x.ts ≤ t) :
    lastFxLE (pre ++ cur :: rest) t = some cur := by
  unfold lastFxLE
  have hnil : List.filter (fun p => decide (p.ts ≤ t)) rest = [] :=
    List.filter_eq_nil_iff.mpr (by simpa using hrest)
  rw [List.filter_append, List.filter_cons_of_pos (by simpa using hcur), hnil]
  exact List.getLast?_concat _

/-- When no sample qualifies at `t`, there is no last qualifying sample. -/
theorem lastFxLE_eq_none (l : List TsClose) (t : Int)
    (h : ∀ x ∈ l, ¬ x.ts ≤ t) : lastFxLE l t = none := by
  unfold lastFxLE
  rw [List.filter_eq_nil_iff.mpr (by simpa using h)]
  rfl

/-- `fxForTs` resolves to `cur` when `cur` qualifies and nothing after it
does. -/
theorem fxForTs_append_cons (pre : List TsClose) (cur : TsClose)
    (rest : List TsClose) (t : Int) (hcur : cur.ts ≤ t)
    (hrest : ∀ x ∈ rest, ¬ x.ts ≤ t) :
    fxForTs (pre ++ cur :: rest) t = cur := by
  unfold fxForTs
  rw [lastFxLE_append_cons pre cur rest t hcur hrest]
  rfl

/-- `fxForTs` resolves to the head when no sample qualifies. -/
theorem fxForTs_of_no_qual (cur : TsClose) (rest : List TsClose) (t : Int)
    (h : ∀ x ∈ cur :: rest, ¬ x.ts ≤ t) :
    fxForTs (cur :: rest) t = cur := by
  unfold fxForTs
  rw [lastFxLE_eq_none _ _ h]
  rfl

/-- Invariant of the forward cursor advance: starting from a cursor whose
consumed prefix `pre` (if any) was consumed at earlier reference timestamps
(so `cur` already qualifies), the advance lands exactly on the sample
`fxForTs` prescribes, consumes a (possibly longer) prefix, and keeps the
invariant that a non-empty consumed prefix means the cursor qualifies. -/
theorem advanceFx_spec (t : Int) :
    ∀ (rest : List TsClose) (cur : TsClose) (pre : List TsClose),
    tsSorted (pre ++ cur :: rest) →
    (pre ≠ [] → cur.ts ≤ t) →
    ∃ pre2,
      pre ++ cur :: rest = pre2 ++ (advanceFx t cur rest).1 :: (advanceFx t cur rest).2
      ∧ (advanceFx t cur rest).1 = fxForTs (pre ++ cur :: rest) t
      ∧ (pre2 ≠ [] → (advanceFx t cur rest).1.ts ≤ t) := by
  intro rest
  induction rest with
  | nil =>
      intro cur pre hs hp
      refine ⟨pre, rfl, ?_, fun hp2 => hp hp2⟩
      by_cases hc : cur.ts ≤ t
      · exact (fxForTs_append_cons pre cur [] t hc (by simp)).symm
      · have hpre : pre = [] := by
          by_contra hne
          exact hc (hp hne)
        subst hpre
        exact (fxForTs_of_no_qual cur [] t (by simpa using hc)).symm
  | cons next rest ih =>
      intro cur pre hs hp
      by_cases hnext : next.ts ≤ t
      · have heq : advanceFx t cur (next :: rest) = advanceFx t next rest := by
          simp [advanceFx, hnext]
        have hs2 : tsSorted ((pre ++ [cur]) ++ next :: rest) := by
          simpa [List.append_assoc] using hs
        obtain ⟨pre2, e, hfx, hple⟩ := ih next (pre ++ [cur]) hs2 (fun _ => hnext)
        refine ⟨pre2, ?_, ?_, ?_⟩
        · rw [heq]
          simpa [List.append_assoc] using e
        · rw [heq, hfx]
          congr 1
          simp [List.append_assoc]
        · rw [heq]
          exact hple
      · have heq : advanceFx t cur (next :: rest) = (cur, next :: rest) := by
          simp [advanceFx, hnext]
        rw [heq]
        refine ⟨pre, rfl, ?_, fun hp2 => hp hp2⟩
        have hsuf : tsSorted (cur :: next :: rest) := tsSorted_of_append hs
        have hrest : ∀ x ∈ next :: rest, ¬ x.ts ≤ t := by
          intro x hx
          rcases List.mem_cons.mp hx with rfl | hx2
          · exact hnext
          · have hnr : tsSorted (next :: rest) := (List.pairwise_cons.mp hsuf).2
            have hle : next.ts ≤ x.ts := (List.pairwise_cons.mp hnr).1 x hx2
            intro hxle
            exact hnext (le_trans hle hxle)
        by_cases hc : cur.ts ≤ t
        · exact (fxForTs_append_cons pre cur (next :: rest) t hc hrest).symm
        · have hpre : pre = [] := by
            by_contra hne
            exact hc (hp hne)
          subst hpre
          refine (fxForTs_of_no_qual cur (next :: rest) t ?_).symm
          intro x hx
          rcases List.mem_cons.mp hx with rfl | hx2
          · exact hc
          · exact hrest x hx2

/-- The per-point loop of the merge produces, for each reference point, the
sample `fxForTs` prescribes on the full FX series, as long as the consumed
prefix invariant holds and both series are sorted. -/
theorem mergeAux_spec :
    ∀ (gold : List TsClose) (cur : TsClose) (fxRest pre : List TsClose),
    tsSorted (pre ++ cur :: fxRest) →
    tsSorted gold →
    (pre ≠ [] → ∀ g ∈ gold, cur.ts ≤ g.ts) →
    mergeAux cur fxRest gold =
      gold.map (fun g => mergePoint g (fxForTs (pre ++ cur :: fxRest) g.ts)) := by
  intro gold
  induction gold with
  | nil => intro cur fxRest pre _ _ _; rfl
  | cons g gs ih =>
      intro cur fxRest pre hsfx hsg hinv
      obtain ⟨pre2, e, hfx, hple⟩ := advanceFx_spec g.ts fxRest cur pre hsfx
        (fun hne => hinv hne g (List.mem_cons_self g gs))
      show mergePoint g (advanceFx g.ts cur fxRest).1 ::
          mergeAux (advanceFx g.ts cur fxRest).1 (advanceFx g.ts cur fxRest).2 gs =
        List.map (fun g2 => mergePoint g2 (fxForTs (pre ++ cur :: fxRest) g2.ts)) (g :: gs)
      rw [List.map_cons]
      congr 1
      · rw [hfx]
      · have hsfx2 : tsSorted (pre2 ++ (advanceFx g.ts cur fxRest).1 ::
            (advanceFx g.ts cur fxRest).2) := e ▸ hsfx
        have hsg2 : tsSorted gs := (List.pairwise_cons.mp hsg).2
        have hinv2 : pre2 ≠ [] → ∀ g2 ∈ gs, (advanceFx g.ts cur fxRest).1.ts ≤ g2.ts := by
          intro hne g2 hg2
          exact le_trans (hple hne) ((List.pairwise_cons.mp hsg).1 g2 hg2)
        rw [ih (advanceFx g.ts cur fxRest).1 (advanceFx g.ts cur fxRest).2 pre2
          hsfx2 hsg2 hinv2, ← e]

/-- C2: for non-empty, timestamp-sorted metal and FX series, the merge yields
exactly one output point per metal point — carrying the metal point's
timestamp and close, the FX close prescribed by `fxForTs` (the latest FX
sample at or before the metal timestamp, or the first FX sample when none
qualifies), and `krwPerGram = usdPerOunce * usdKrw / OUNCE_TO_GRAM` — so the
output has the metal series' length and non-decreasing timestamps. -/
theorem mergeGoldAndFx_spec (goldSeries fxSeries : List TsClose)
    (hg : goldSeries ≠ []) (hf : fxSeries ≠ [])
    (hsg : tsSorted goldSeries) (hsf : tsSorted fxSeries) :
    mergeGoldAndFx goldSeries fxSeries =
      goldSeries.map (fun g => mergePoint g (fxForTs fxSeries g.ts))
    ∧ (mergeGoldAndFx goldSeries fxSeries).length = goldSeries.length
    ∧ tsSortedPoints (mergeGoldAndFx goldSeries fxSeries) := by
  obtain ⟨f0, fs, rfl⟩ := List.exists_cons_of_ne_nil hf
  obtain ⟨g0, gs, rfl⟩ := List.exists_cons_of_ne_nil hg
  have hmain : mergeGoldAndFx (g0 :: gs) (f0 :: fs) =
      (g0 :: gs).map (fun g => mergePoint g (fxForTs (f0 :: fs) g.ts)) := by
    show mergeAux f0 fs (g0 :: gs) = _
    exact mergeAux_spec (g0 :: gs) f0 fs [] hsf hsg (fun h => absurd rfl h)
  refine ⟨hmain, by rw [hmain, List.length_map], ?_⟩
  rw [hmain, tsSortedPoints, List.pairwise_map]
  exact List.Pairwise.imp (fun h => h) hsg

/-- C2 witness (the spec's concrete scenario): metal series
`[(100, 1900), (200, 1905)]` and FX series `[(50, 1300)]` merge into two
points pairing each metal sample with the single FX sample. -/
theorem mergeGoldAndFx_spec_witness :
    mergeGoldAndFx [⟨100, 1900⟩, ⟨200, 1905⟩] [⟨50, 1300⟩] =
      [⟨100, 1900⟩, ⟨200, 1905⟩].map
        (fun g => mergePoint g (fxForTs [⟨50, 1300⟩] g.ts))
    ∧ (mergeGoldAndFx [⟨100, 1900⟩, ⟨200, 1905⟩] [⟨50, 1300⟩]).length =
        ([⟨100, 1900⟩, ⟨200, 1905⟩] : List TsClose).length
    ∧ tsSortedPoints (mergeGoldAndFx [⟨100, 1900⟩, ⟨200, 1905⟩] [⟨50, 1300⟩]) :=
  mergeGoldAndFx_spec [⟨100, 1900⟩, ⟨200, 1905⟩] [⟨50, 1300⟩]
    (by simp) (by simp) (by simp) (by simp)
